import Mathlib

/-!
Verification of the Template Resolution & Schema Expansion Engine of
`packages/dialog/src/library/dialogGenerator.ts`.

The TypeScript source is shallowly embedded below.  JavaScript values that
flow through the engine (the JSON-shaped schema tree) are modelled by the
inductive `Json`; the dynamic `typeof` dispatch of the source is mirrored by
matching on constructors, and JavaScript truthiness by `truthy`.  External
collaborators (the expression engine, the LG template evaluator, the `path`
module of Node) are modelled by explicit function parameters or by direct
transcriptions of the Node semantics for the inputs this engine produces.
Exceptions are modelled with `Except String`; the message strings of internal
TypeErrors are abbreviated (their content is never inspected by the engine,
only forwarded to the feedback callback).
-/

set_option autoImplicit false

/-- Feedback severities, from the `FeedbackType` enum of the source. -/
inductive FeedbackType where
  | message
  | info
  | warning
  | error
deriving DecidableEq, Repr

/-- One call of the feedback callback: a severity and a message. -/
abbrev Fb := FeedbackType × String

/-- JSON-shaped JavaScript values: the schema tree walked by `expandSchema`.
`null` is a genuine JSON value and, in JavaScript, `typeof null` is
`'object'`, which matters below. Numbers are modelled by `Int`. -/
inductive Json where
  | null
  | bool (b : Bool)
  | num (n : Int)
  | str (s : String)
  | arr (elems : List Json)
  | obj (entries : List (String × Json))
deriving Repr

/-- JavaScript truthiness of a `Json` value. -/
def truthy : Json → Bool
  | Json.null => false
  | Json.bool b => b
  | Json.num n => n != 0
  | Json.str s => s != ""
  | Json.arr _ => true
  | Json.obj _ => true

/-- Truthiness of a possibly-undefined value (`none` = `undefined`). -/
def truthyOpt : Option Json → Bool
  | none => false
  | some v => truthy v

/-- JavaScript falsiness of the `error` component returned by `tryEvaluate`
(`undefined` and the empty string are falsy). -/
def errFalsy : Option String → Bool
  | none => true
  | some s => s == ""

/-- String interpolation of a possibly-undefined error, as in
the template literal of the source (an undefined value prints as
the text undefined). -/
def errStr : Option String → String
  | none => "undefined"
  | some s => s

/-- Does `pat` occur as a prefix of `l`? -/
def listHasPre (pat l : List Char) : Bool :=
  match pat, l with
  | [], _ => true
  | _ :: _, [] => false
  | a :: as, b :: bs => a == b && listHasPre as bs

/-- Does `pat` occur anywhere inside `l`?  (JavaScript `includes`.) -/
def listOccurs (pat : List Char) : List Char → Bool
  | [] => listHasPre pat []
  | c :: cs => listHasPre pat (c :: cs) || listOccurs pat cs

/-- JavaScript `s.includes(sub)`. -/
def strOccurs (s sub : String) : Bool := listOccurs sub.toList s.toList

/-- JavaScript `s.startsWith(pre)`. -/
def strStarts (s pre : String) : Bool := listHasPre pre.toList s.toList

/-- JavaScript `s.endsWith(suf)` (used for `path.basename`). -/
def strEnds (s suf : String) : Bool := listHasPre suf.toList.reverse s.toList.reverse

/-- JavaScript `String.prototype.substring(a, b)`: both indices are clamped
to the string length and swapped when out of order. -/
def jsSubstring (s : String) (a b : Nat) : String :=
  let l := s.toList
  let n := l.length
  let x := min a n
  let y := min b n
  let lo := min x y
  let hi := max x y
  String.mk ((l.drop lo).take (hi - lo))

/-- The scope update `\x7b ...scope, property: newPath \x7d` performed while
descending into a `properties` level.  The scope type is abstract (`σ`);
the update function is supplied by the caller. -/
abbrev SetProp (σ : Type) := σ → String → σ

/-- The external expression engine as consumed by `expandSchema`:
`parse(expr).tryEvaluate(scope)`.  `Except.error` models a thrown exception
(parse error or evaluator crash); `Except.ok (value, error)` models the
`\x7bvalue, error\x7d` record returned by `tryEvaluate`, where `none` is
`undefined`. -/
abbrev EvalFn (σ : Type) := String → σ → Except String (Option Json × Option String)

/-- Message of the TypeError raised by `Object.entries(null)`. -/
def nullEntriesMsg : String := "Cannot convert undefined or null to object"

/-- The expression branch of `expandSchema` (source lines 261-273): the
already-extracted inner expression `expr` is parsed and evaluated; a thrown
exception is caught and reported regardless of `missingIsError`, while a
`tryEvaluate` error (or a falsy result) is reported only when
`missingIsError` is true.  In every failure case the original string is
kept. -/
def exprBranch {σ : Type} (ev : EvalFn σ) (scope : σ) (missingIsError : Bool)
    (orig expr : String) : Except String Json × List Fb :=
  match ev expr scope with
  | Except.error m => (Except.ok (Json.str orig), [(FeedbackType.error, expr ++ ": " ++ m)])
  | Except.ok (value, error) =>
    if errFalsy error && truthyOpt value then
      (Except.ok (value.getD (Json.str orig)), [])
    else
      (Except.ok (Json.str orig),
        if missingIsError then [(FeedbackType.error, expr ++ ": " ++ errStr error)] else [])

mutual

/-- Model of `expandSchema` (source lines 242-276).  The result pairs the
produced tree (or a thrown exception, via `Except.error`) with the feedback
calls issued, in order.  `Json.null` falls into the `typeof === 'object'`
branch of the source, where `Object.entries(null)` throws. -/
def expandSchema {σ : Type} (ev : EvalFn σ) (setP : SetProp σ) :
    Json → σ → String → Bool → Bool → Except String Json × List Fb
  | Json.arr elems, scope, path, _, missingIsError =>
    match expandList ev setP elems scope path missingIsError with
    | (Except.ok ys, fb) => (Except.ok (Json.arr ys), fb)
    | (Except.error m, fb) => (Except.error m, fb)
  | Json.obj entries, scope, path, inProperties, missingIsError =>
    match expandObj ev setP entries scope path inProperties missingIsError with
    | (Except.ok ys, fb) => (Except.ok (Json.obj ys), fb)
    | (Except.error m, fb) => (Except.error m, fb)
  | Json.null, _, _, _, _ => (Except.error nullEntriesMsg, [])
  | Json.str s, scope, _, _, missingIsError =>
    if strStarts s "$\x7b" then
      exprBranch ev scope missingIsError s (jsSubstring s 2 (s.length - 1))
    else
      (Except.ok (Json.str s), [])
  | Json.bool b, _, _, _, _ => (Except.ok (Json.bool b), [])
  | Json.num n, _, _, _, _ => (Except.ok (Json.num n), [])

/-- The array loop of `expandSchema` (lines 245-249): each element is
expanded with the same scope and path and `inProperties = false`. -/
def expandList {σ : Type} (ev : EvalFn σ) (setP : SetProp σ) :
    List Json → σ → String → Bool → Except String (List Json) × List Fb
  | [], _, _, _ => (Except.ok [], [])
  | x :: xs, scope, path, missingIsError =>
    match expandSchema ev setP x scope path false missingIsError with
    | (Except.error m, fb) => (Except.error m, fb)
    | (Except.ok y, fb) =>
      match expandList ev setP xs scope path missingIsError with
      | (Except.ok ys, fb2) => (Except.ok (y :: ys), fb ++ fb2)
      | (Except.error m, fb2) => (Except.error m, fb ++ fb2)

/-- The object loop of `expandSchema` (lines 251-259): each value is
expanded with `scope.property` updated to the (possibly extended) path, and
`inProperties` set exactly when the key is `properties`. -/
def expandObj {σ : Type} (ev : EvalFn σ) (setP : SetProp σ) :
    List (String × Json) → σ → String → Bool → Bool →
    Except String (List (String × Json)) × List Fb
  | [], _, _, _, _ => (Except.ok [], [])
  | (k, v) :: kvs, scope, path, inProperties, missingIsError =>
    let newPath := if inProperties then (if path == "" then k else path ++ "." ++ k) else path
    match expandSchema ev setP v (setP scope newPath) newPath (k == "properties") missingIsError with
    | (Except.error m, fb) => (Except.error m, fb)
    | (Except.ok y, fb) =>
      match expandObj ev setP kvs scope path inProperties missingIsError with
      | (Except.ok ys, fb2) => (Except.ok ((k, y) :: ys), fb ++ fb2)
      | (Except.error m, fb2) => (Except.error m, fb ++ fb2)

end

mutual

/-- No string node of the tree starts with the expression marker: the tree
is already expanded. -/
def noMarkJ : Json → Bool
  | Json.null => true
  | Json.bool _ => true
  | Json.num _ => true
  | Json.str s => !(strStarts s "$\x7b")
  | Json.arr elems => noMarkL elems
  | Json.obj entries => noMarkO entries

/-- `noMarkJ` on every element of a list. -/
def noMarkL : List Json → Bool
  | [] => true
  | x :: xs => noMarkJ x && noMarkL xs

/-- `noMarkJ` on every value of an object entry list. -/
def noMarkO : List (String × Json) → Bool
  | [] => true
  | (_, v) :: kvs => noMarkJ v && noMarkO kvs

end

mutual

/-- The tree holds no `null` node. -/
def noNullJ : Json → Bool
  | Json.null => false
  | Json.bool _ => true
  | Json.num _ => true
  | Json.str _ => true
  | Json.arr elems => noNullL elems
  | Json.obj entries => noNullO entries

/-- `noNullJ` on every element of a list. -/
def noNullL : List Json → Bool
  | [] => true
  | x :: xs => noNullJ x && noNullL xs

/-- `noNullJ` on every value of an object entry list. -/
def noNullO : List (String × Json) → Bool
  | [] => true
  | (_, v) :: kvs => noNullJ v && noNullO kvs

end

/-! ### Node `path` module and JavaScript string operations

Transcriptions of the Node builtins used by the engine, for the
slash-separated, dot-free-segment paths this engine produces (no `.`/`..`
normalization is exercised by it). -/

/-- `path.join(a, b)` for the forms used here. -/
def pjoin (a b : String) : String := if a == "" then b else a ++ "/" ++ b

/-- Split a character list at every occurrence of `c` (JavaScript
`split` with a single-character separator). -/
def splitCh (c : Char) : List Char → List (List Char)
  | [] => [[]]
  | x :: xs =>
    let r := splitCh c xs
    if x == c then [] :: r
    else
      match r with
      | h :: t => (x :: h) :: t
      | [] => [[x]]

/-- JavaScript `s.split(c)` for a one-character separator. -/
def strSplitOn (s : String) (c : Char) : List String := (splitCh c s.toList).map String.mk

/-- `path.basename(p)`: the final path segment (the engine never builds
paths with trailing separators). -/
def ppBasename (p : String) : String := (strSplitOn p '/').getLastD p

/-- Index (from the front) of the last dot of a character list, if any. -/
def lastDotIdx (l : List Char) : Option Nat :=
  (l.reverse.findIdx? (· == '.')).map (fun i => l.length - 1 - i)

/-- `path.extname(p)`: from the last dot of the basename, unless that dot is
its first character. -/
def ppExtname (p : String) : String :=
  let b := ppBasename p
  match lastDotIdx b.toList with
  | none => ""
  | some 0 => ""
  | some n => String.mk (b.toList.drop n)

/-- `path.basename(p, ext)`: the basename, with `ext` removed when the
basename ends with it and is not equal to it. -/
def ppBasenameExt (p ext : String) : String :=
  let b := ppBasename p
  if b != ext && strEnds b ext then String.mk (b.toList.take (b.toList.length - ext.length)) else b

/-- `path.dirname(p)`. -/
def pdirname (p : String) : String :=
  let parts := strSplitOn p '/'
  if parts.length ≤ 1 then "." else String.intercalate "/" parts.dropLast

/-- `path.relative(outDir, p)` for the produced-under-`outDir` paths this
engine builds. -/
def prelative (outDir p : String) : String :=
  if outDir == "" then p
  else if listHasPre (outDir ++ "/").toList p.toList then
    String.mk (p.toList.drop (outDir.length + 1))
  else p

/-- `ppath.extname(p).substring(1)`: the extension without its dot, the key
of the file-identity tracker. -/
def extnameNoDot (p : String) : String := String.mk ((ppExtname p).toList.drop 1)

/-- Length of the maximal dot-free prefix. -/
def nonDotRun : List Char → Nat
  | [] => 0
  | c :: cs => if c == '.' then 0 else 1 + nonDotRun cs

/-- A match of the regular expression `\.[^.]+\.lg` starting at the head of
the list: its length, if it matches.  Because `[^.]+` cannot cross a dot,
the greedy run before the closing `.lg` is forced. -/
def lgMatchAt (l : List Char) : Option Nat :=
  match l with
  | '.' :: rest =>
    let r := nonDotRun rest
    if 1 ≤ r && listHasPre ['.', 'l', 'g'] (rest.drop r) then some (1 + r + 3) else none
  | _ => none

/-- Replace the leftmost match of `\.[^.]+\.lg` by `.lg`, if any. -/
def replaceLgAux : List Char → Option (List Char)
  | [] => none
  | c :: cs =>
    match lgMatchAt (c :: cs) with
    | some len => some (['.', 'l', 'g'] ++ (c :: cs).drop len)
    | none => (replaceLgAux cs).map (fun r => c :: r)

/-- JavaScript `basename.replace(/\.[^.]+\.lg/, '.lg')`: collapse a
locale-qualifier suffix for override matching. -/
def replaceLocaleLg (s : String) : String :=
  match replaceLgAux s.toList with
  | some r => String.mk r
  | none => s

/-! ### File identity tracker -/

/-- The `FileRef` record of the source. -/
structure FileRef where
  name : String
  fallbackName : String
  fullName : String
  relative : String
deriving DecidableEq, Repr

/-- The `scope.templates` tracker: extension (without dot) to the list of
claimed `FileRef`s, in insertion order (a JavaScript object used as a map). -/
abbrev Tracker := List (String × List FileRef)

/-- Association-list lookup (JavaScript property read). -/
def alookup {α : Type} : List (String × α) → String → Option α
  | [], _ => none
  | (k, v) :: rest, key => if k == key then some v else alookup rest key

/-- Association-list update (JavaScript property write: in-place when the
key exists, appended otherwise). -/
def aset {α : Type} : List (String × α) → String → α → List (String × α)
  | [], key, v => [(key, v)]
  | (k, v0) :: rest, key, v =>
    if k == key then (k, v) :: rest else (k, v0) :: aset rest key v

/-- Model of `existingRef` (source lines 96-104): looks up `name` by its
extension and exact `fullName`; when the extension has no bucket yet, an
empty bucket is created (a mutation of the tracker). -/
def existingRef (name : String) (tracker : Tracker) : Option FileRef × Tracker :=
  let ext := extnameNoDot name
  match alookup tracker ext with
  | none => (none, aset tracker ext [])
  | some arr => (arr.find? (fun r => r.fullName == name), tracker)

/-- Model of `addEntry` (source lines 80-94).  The base name strips only a
`.dialog` suffix (`ppath.basename(fullPath, '.dialog')`).  When the tracker
has no bucket for the extension of `fullPath`, `tracker[ext]` is `undefined`
and `arr.find` throws — modelled by `Except.error`. -/
def addEntry (fullPath outDir : String) (tracker : Tracker) : Except String (Option FileRef) :=
  let basename := ppBasenameExt fullPath ".dialog"
  let ext := extnameNoDot fullPath
  match alookup tracker ext with
  | none => Except.error "Cannot read properties of undefined"
  | some arr =>
    if arr.any (fun r => r.name == basename) then
      Except.ok none
    else
      Except.ok (some
        { name := basename
          fallbackName := replaceLocaleLg basename
          fullName := ppBasename fullPath
          relative := prelative outDir fullPath })

/-! ### Template locator -/

/-- Values produced by `evaluateTemplate`: a string, an array of strings, or
null/undefined. -/
inductive EvalValue where
  | vstr (s : String)
  | vlist (xs : List String)
  | vnull
deriving Repr

/-- The scope snapshot an LG template evaluation can observe (the fields of
the mutable `scope` object that this engine sets). -/
structure ScopeView where
  locale : String
  property : String
  typeName : String
  role : Option String
  pfx : String

/-- One named section of a parsed `.lg` file. -/
structure LGTemplate where
  name : String
  source : String

/-- A parsed `.lg` file: its named sections together with the external
evaluator `evaluateTemplate` (which may throw, hence `Except`). -/
structure LGFile where
  templates : List LGTemplate
  evalT : String → ScopeView → Except String EvalValue

/-- `type Template = lg.LGFile | string` of the source; absence is
`Option.none` one level up. -/
inductive Template where
  | lgT (f : LGFile)
  | text (s : String)

/-- JavaScript truthiness of a template value: only the empty string is
falsy. -/
def truthyTemplate : Template → Bool
  | Template.lgT _ => true
  | Template.text s => s != ""

/-- A template directory: the files it directly contains, as a map from
filename (within the directory) to content. -/
structure Dir where
  files : List (String × String)

/-- One directory probe of `findTemplate` (lines 58-68): a same-named
literal file wins, else a `<name>.lg` file is parsed.  `parse` stands for
`lg.LGParser.parseFile`, keyed here by the file content it reads. -/
def dirLookup (parse : String → LGFile) (name : String) (d : Dir) : Option Template :=
  match alookup d.files name with
  | some content => some (Template.text content)
  | none =>
    match alookup d.files (name ++ ".lg") with
    | some content => some (Template.lgT (parse content))
    | none => none

/-- Model of `findTemplate` (lines 55-71): every directory is scanned in
order and a hit in a later directory overwrites the current result. -/
def findTemplate (parse : String → LGFile) (name : String) (dirs : List Dir) : Option Template :=
  dirs.foldl
    (fun acc d =>
      match dirLookup parse name d with
      | some t => some t
      | none => acc)
    none

/-! ### Generation state and the template materializer -/

/-- The `$`-metadata of one schema property node that this engine reads and
writes: `$entities` and `$templates` (string arrays per the schema
contract; `none` is absent/undefined). -/
structure PropSchema where
  entities : Option (List String)
  tmpl : Option (List String)
deriving DecidableEq, Repr

/-- The mutable run state threaded through materialization: the process
working directory, the output filesystem (paths that exist), the feedback
already emitted, the tracker, the schema property nodes
(`scope.schema.properties`, keyed by property path), and the mutable scope
fields `locale`, `property`, `type` and `role`. -/
structure GenState where
  cwd : String
  disk : List String
  feedback : List Fb
  tracker : Tracker
  props : List (String × PropSchema)
  locale : String
  property : String
  typeName : String
  role : Option String
deriving DecidableEq, Repr

/-- Append one feedback call. -/
def pushFb (st : GenState) (fb : Fb) : GenState :=
  { st with feedback := st.feedback ++ [fb] }

/-- `fs.pathExists` against the modelled output filesystem. -/
def pathExists (st : GenState) (p : String) : Bool := st.disk.contains p

/-- The per-run constants of a generation: template directories, output
directory, filename prefix, the `force` flag and the LG parser. -/
structure Env where
  templateDirs : List Dir
  outDir : String
  pfx : String
  force : Bool
  parse : String → LGFile

/-- The scope snapshot passed to `evaluateTemplate`. -/
def scopeOf (env : Env) (st : GenState) : ScopeView :=
  { locale := st.locale
    property := st.property
    typeName := st.typeName
    role := st.role
    pfx := env.pfx }

/-- All `FileRef`s registered in a tracker, across buckets. -/
def allTrackerRefs (tr : Tracker) : List FileRef := (tr.map (fun kv => kv.2)).flatten

/-- Append a ref to the (existing) bucket of `ext`
(`scope.templates[ext].push(ref)`, line 160). -/
def pushRef (st : GenState) (ext : String) (ref : FileRef) : GenState :=
  { st with tracker := aset st.tracker ext ((alookup st.tracker ext).getD [] ++ [ref]) }

/-- `template.templates.some(f => f.name === sect)`. -/
def hasSection (tpl : Template) (sect : String) : Bool :=
  match tpl with
  | Template.text _ => false
  | Template.lgT f => f.templates.any (fun t => t.name == sect)

/-- Line 126: constant file, or a `.lg` file with a `template` section. -/
def outputCond (tpl : Template) : Bool :=
  match tpl with
  | Template.text _ => true
  | Template.lgT f => f.templates.any (fun t => t.name == "template")

/-- Locale nesting (lines 131-134): a default filename containing the
current locale is moved under a locale directory. -/
def localeAdjust (st : GenState) (filename : String) : String :=
  if strOccurs filename st.locale then st.locale ++ "/" ++ filename else filename

/-- The output filename computation (lines 128-134): default
`<prefix>-<templateName>` (`addPrefix`), overridden by a `filename` section,
else locale-nested.  A non-string `filename` result makes the later
`ppath.join` throw. -/
def computeFilename (env : Env) (tpl : Template) (templateName : String) (st : GenState) :
    Except String String :=
  let filename := env.pfx ++ "-" ++ templateName
  match tpl with
  | Template.lgT f =>
    if f.templates.any (fun t => t.name == "filename") then
      match f.evalT "filename" (scopeOf env st) with
      | Except.error m => Except.error m
      | Except.ok (EvalValue.vstr s) => Except.ok s
      | Except.ok _ => Except.error "Path must be a string"
    else Except.ok (localeAdjust st filename)
  | Template.text _ => Except.ok (localeAdjust st filename)

/-- What gets written to disk: a string, or an invalid value whose write
throws a TypeError (`fs.writeFile` rejects objects and null). -/
inductive WriteVal where
  | wstr (s : String)
  | wbad

/-- An override found by re-running the locator on the computed filename
(lines 152-155) replaces the body wholesale. -/
def templateToWriteVal : Template → WriteVal
  | Template.text s => WriteVal.wstr s
  | Template.lgT _ => WriteVal.wbad

/-- Body production (lines 142-149): a constant file is emitted as-is; an
`.lg` file first switches the working directory to the directory of its
first section's source (throwing when it has none), then evaluates its
`template` section, joining array results with line breaks. -/
def renderBody (env : Env) (tpl : Template) (st : GenState) : GenState × Except String WriteVal :=
  match tpl with
  | Template.text s => (st, Except.ok (WriteVal.wstr s))
  | Template.lgT f =>
    match f.templates with
    | [] => (st, Except.error "Cannot read properties of undefined")
    | t0 :: _ =>
      let st := { st with cwd := pdirname t0.source }
      match f.evalT "template" (scopeOf env st) with
      | Except.error m => (st, Except.error m)
      | Except.ok (EvalValue.vstr s) => (st, Except.ok (WriteVal.wstr s))
      | Except.ok (EvalValue.vlist xs) => (st, Except.ok (WriteVal.wstr (String.intercalate "\n" xs)))
      | Except.ok EvalValue.vnull => (st, Except.ok WriteVal.wbad)

/-- `fs.writeFile(outPath, result)`: only strings succeed. -/
def writeValue : WriteVal → Except String String
  | WriteVal.wstr s => Except.ok s
  | WriteVal.wbad => Except.error "The data argument must be of type string"

/-- The file-output block of `processTemplate` (lines 126-166).  Returns the
`outPath` variable, the state, and a pending exception if one was thrown
(which the caller's catch turns into error feedback, skipping the section
phase). -/
def outputPhase (env : Env) (tpl : Template) (templateName : String) (st : GenState) :
    String × GenState × Option String :=
  if outputCond tpl then
    match computeFilename env tpl templateName st with
    | Except.error m => ("", st, some m)
    | Except.ok filename =>
      let outPath := pjoin env.outDir filename
      match addEntry outPath env.outDir st.tracker with
      | Except.error m => (outPath, st, some m)
      | Except.ok none => (outPath, st, none)
      | Except.ok (some ref) =>
        if env.force || !(pathExists st outPath) then
          let st := pushFb st (FeedbackType.info, "Generating " ++ outPath)
          match renderBody env tpl st with
          | (st2, Except.error m) => (outPath, st2, some m)
          | (st2, Except.ok result) =>
            let result2 :=
              match findTemplate env.parse filename env.templateDirs with
              | some ex => if truthyTemplate ex then templateToWriteVal ex else result
              | none => result
            match writeValue result2 with
            | Except.error m => (outPath, st2, some m)
            | Except.ok _ =>
              let st3 := { st2 with disk := outPath :: st2.disk }
              (outPath, pushRef st3 (extnameNoDot outPath) ref, none)
        else
          (outPath, pushFb st (FeedbackType.warning, "Skipping already existing " ++ outPath), none)
  else ("", st, none)

/-- JavaScript for-of over a string iterates its characters. -/
def chars2strs (s : String) : List String := s.toList.map (fun c => String.mk [c])

/-- The value stored into `$entities` (line 172): an array as-is; a truthy
string behaves as its character sequence for every later use. -/
def entVal : EvalValue → Option (List String)
  | EvalValue.vnull => none
  | EvalValue.vstr s => if s == "" then none else some (chars2strs s)
  | EvalValue.vlist xs => some xs

/-- The `entities`/`templates` section phase (lines 168-181), parameterized
by the recursive materialization continuation `pt` (which the source calls
with `ignorable = false`, line 178). -/
def sectionsPhase (env : Env) (pt : String → GenState → String × GenState) (tpl : Template)
    (outPath : String) (st : GenState) : String × GenState × Option String :=
  match tpl with
  | Template.text _ => (outPath, st, none)
  | Template.lgT f =>
    let entStep : GenState × Option String :=
      if hasSection tpl "entities" then
        match alookup st.props st.property with
        | none => (st, some "Cannot read properties of undefined")
        | some ps =>
          if ps.entities.isNone then
            match f.evalT "entities" (scopeOf env st) with
            | Except.error m => (st, some m)
            | Except.ok v =>
              match entVal v with
              | none => (st, none)
              | some es =>
                ({ st with props := aset st.props st.property { ps with entities := some es } }, none)
          else (st, none)
      else (st, none)
    match entStep with
    | (st1, some m) => (outPath, st1, some m)
    | (st1, none) =>
      if hasSection tpl "templates" then
        match f.evalT "templates" (scopeOf env st1) with
        | Except.error m => (outPath, st1, some m)
        | Except.ok EvalValue.vnull => (outPath, st1, some "generated is not iterable")
        | Except.ok (EvalValue.vstr s) =>
          (outPath, (chars2strs s).foldl (fun a n => (pt n a).2) st1, none)
        | Except.ok (EvalValue.vlist xs) =>
          (outPath, xs.foldl (fun a n => (pt n a).2) st1, none)
      else (outPath, st1, none)

/-- The try-block of `processTemplate` (lines 117-186), parameterized by the
recursive continuation. -/
def ptBodyAux (env : Env) (pt : String → GenState → String × GenState) (ignorable : Bool)
    (templateName : String) (st0 : GenState) : String × GenState × Option String :=
  let er := existingRef templateName st0.tracker
  let st := { st0 with tracker := er.2 }
  match er.1 with
  | some ref => (pjoin env.outDir ref.relative, st, none)
  | none =>
    match findTemplate env.parse templateName env.templateDirs with
    | none =>
      if ignorable then ("", st, none)
      else ("", pushFb st (FeedbackType.error, "Missing template " ++ templateName), none)
    | some tpl =>
      if truthyTemplate tpl then
        match outputPhase env tpl templateName st with
        | (outPath, st1, some m) => (outPath, st1, some m)
        | (outPath, st1, none) => sectionsPhase env pt tpl outPath st1
      else ("", st, none)

/-- Model of `processTemplate` (lines 106-193).  `fuel` bounds the recursive
fan-out through `templates` sections (the source recurses unboundedly; every
terminating run is reproduced with enough fuel).  The catch of the source
turns a pending exception into error feedback, and the finally restores the
working directory on every exit path. -/
def processTemplate (env : Env) (fuel : Nat) (ignorable : Bool) (templateName : String)
    (st : GenState) : String × GenState :=
  match fuel with
  | 0 => ("", st)
  | Nat.succ f =>
    let oldDir := st.cwd
    let r := ptBodyAux env (fun n a => processTemplate env f false n a) ignorable templateName st
    let st1 :=
      match r.2.2 with
      | some m => pushFb r.2.1 (FeedbackType.error, m)
      | none => r.2.1
    (r.1, { st1 with cwd := oldDir })

/-! ### Generation orchestrator -/

/-- Materialize a list of template names, each non-ignorable (lines 213-215
and 234-236). -/
def templatesLoop (env : Env) (fuel : Nat) (ts : List String) (st : GenState) : GenState :=
  ts.foldl (fun a t => (processTemplate env fuel false t a).2) st

/-- One step of the entity loop (lines 220-227): split the declaration on
`:` into name and optional role, resolve the self-reference
`<property>Entity` to the type name, and materialize the synthesized name
`<entityName>Entity-<type>` — the source passes `false` for `ignorable`
(line 226).  The name computation (lines 221-225): -/
def synthName (st : GenState) (entity : String) : String :=
  let parts := strSplitOn entity ':'
  let entityName0 := parts.headD ""
  let entityName := if entityName0 == st.property ++ "Entity" then st.typeName else entityName0
  entityName ++ "Entity-" ++ st.typeName

/-- One step of the entity loop, continued: set `scope.role`, then
materialize `synthName` non-ignorably. -/
def entityStep (env : Env) (fuel : Nat) (st : GenState) (entity : String) : GenState :=
  (processTemplate env fuel false (synthName st entity)
    { st with role := (strSplitOn entity ':')[1]? }).2

/-- The entity loop over a property's `$entities` list. -/
def entityLoop (env : Env) (fuel : Nat) (es : List String) (st : GenState) : GenState :=
  es.foldl (entityStep env fuel) st

/-- The explicit or defaulted template list of a property (lines 209-212):
`$templates` when declared (an empty array is truthy), else the single
default named after the type. -/
def propTemplates (st : GenState) (path ty : String) : List String :=
  match (alookup st.props path).bind (fun ps => ps.tmpl) with
  | some ts => ts
  | none => [ty]

/-- The `$entities` authoring-omission message (line 218). -/
def entitiesMsg (path : String) : String :=
  path ++ " does not have $entities defined in schema or template."

/-- The per-property body of `processTemplates` (lines 207-228): set the
scope's property and type, materialize its (explicit or defaulted)
templates, then re-read `$entities` from the property node — the template
pass may have attached it — and report the authoring-omission error when it
is still absent; otherwise run the entity loop unless explicit `$templates`
are declared. -/
def processProperty (env : Env) (fuel : Nat) (st0 : GenState) (pr : String × String) : GenState :=
  let st := { st0 with property := pr.1, typeName := pr.2 }
  let st1 := templatesLoop env fuel (propTemplates st pr.1 pr.2) st
  match (alookup st1.props pr.1).bind (fun ps => ps.entities) with
  | none => pushFb st1 (FeedbackType.error, entitiesMsg pr.1)
  | some es =>
    match (alookup st1.props pr.1).bind (fun ps => ps.tmpl) with
    | some _ => st1
    | none => entityLoop env fuel es st1

/-- Model of `processTemplates` (lines 195-239): reset the tracker, then for
each locale process every schema property (in declaration order, supplied by
the external `schemaProperties()` as `(path, typeName)` pairs) and finally
the top-level `$templates`. -/
def processTemplates (env : Env) (fuel : Nat) (schemaProps : List (String × String))
    (topTemplates : Option (List String)) (locales : List String) (st : GenState) : GenState :=
  let st := { st with tracker := [] }
  locales.foldl
    (fun a loc =>
      let a := { a with locale := loc }
      let a := schemaProps.foldl (processProperty env fuel) a
      match topTemplates with
      | some ts => templatesLoop env fuel ts a
      | none => a)
    st

/-! ### The final schema write (line 370)

`JSON.stringify(expanded, (key, val) => (key === '$templates' || key ===
'$requires') ? undefined : val, 4)` — the replacer is applied to every
object property at every depth; returning undefined omits the property.
`stringifyVal` models the value tree that serialization emits. -/

mutual

/-- The value tree serialized by the final `JSON.stringify` call with its
replacer. -/
def stringifyVal : Json → Json
  | Json.obj entries => Json.obj (stringifyObj entries)
  | Json.arr elems => Json.arr (stringifyArr elems)
  | j => j

/-- Object entries under the replacer: `$templates` and `$requires` entries
are omitted, every other entry is kept and recursively serialized. -/
def stringifyObj : List (String × Json) → List (String × Json)
  | [] => []
  | (k, v) :: rest =>
    if k == "$templates" || k == "$requires" then stringifyObj rest
    else (k, stringifyVal v) :: stringifyObj rest

/-- Array elements under the replacer: index keys never match, so every
element is kept. -/
def stringifyArr : List Json → List Json
  | [] => []
  | x :: xs => stringifyVal x :: stringifyArr xs

end

/-! ## Claims -/

/-- Claim C6: every call to `processTemplate` restores the process working
directory to its value at entry on every exit path — normal return,
short-circuit, and exception during template evaluation or file I/O — even
though body evaluation may temporarily change the working directory to the
template's source directory.  The embedding reproduces the try/catch/finally
structure of the source: `renderBody` switches `cwd` before evaluating, a
pending exception skips to the catch, and the finally (the final update
below the match) writes back the saved directory. -/
theorem c6_cwd_restored (env : Env) (fuel : Nat) (ignorable : Bool) (templateName : String)
    (st : GenState) : ((processTemplate env fuel ignorable templateName st).2).cwd = st.cwd := by
  cases fuel with
  | zero => rfl
  | succ f => rfl

/-- The `findTemplate` fold with an arbitrary accumulator: a hit anywhere in
the remaining directories discards the accumulator, otherwise the
accumulator survives. -/
theorem findTemplate_fold_init (parse : String → LGFile) (name : String) :
    ∀ (dirs : List Dir) (a : Option Template),
      List.foldl
        (fun acc d =>
          match dirLookup parse name d with
          | some t => some t
          | none => acc)
        a dirs
        = match findTemplate parse name dirs with
          | some t => some t
          | none => a := by
  intro dirs
  induction dirs with
  | nil => intro a; rfl
  | cons d ds ih =>
    intro a
    rw [List.foldl_cons, ih]
    conv_rhs => rw [findTemplate, List.foldl_cons, ih]
    cases hF : findTemplate parse name ds with
    | some t => rfl
    | none => cases hD : dirLookup parse name d <;> rfl

/-- Claim C5: `findTemplate` scans all directories in order without stopping
at the first hit, each later directory's match overwriting the earlier
result; with directories `[A, B]` both containing the name, the result comes
from `B`; and it returns `undefined` exactly when no directory contains the
name in either form. -/
theorem c5_findTemplate_precedence (parse : String → LGFile) (name : String) :
    (∀ dirs1 dirs2 : List Dir,
      findTemplate parse name (dirs1 ++ dirs2)
        = match findTemplate parse name dirs2 with
          | some t => some t
          | none => findTemplate parse name dirs1)
    ∧ (∀ A B : Dir, (dirLookup parse name B).isSome = true →
        findTemplate parse name [A, B] = dirLookup parse name B)
    ∧ (∀ dirs : List Dir,
        findTemplate parse name dirs = none ↔ ∀ d ∈ dirs, dirLookup parse name d = none) := by
  have happ : ∀ dirs1 dirs2 : List Dir,
      findTemplate parse name (dirs1 ++ dirs2)
        = match findTemplate parse name dirs2 with
          | some t => some t
          | none => findTemplate parse name dirs1 := by
    intro dirs1 dirs2
    rw [findTemplate, List.foldl_append, findTemplate_fold_init]
    rfl
  refine ⟨happ, ?_, ?_⟩
  · intro A B hB
    have key : findTemplate parse name [A, B]
        = match dirLookup parse name B with
          | some u => some u
          | none =>
            match dirLookup parse name A with
            | some u => some u
            | none => none := rfl
    rcases hsome : dirLookup parse name B with _ | t
    · rw [hsome] at hB; simp at hB
    · rw [key, hsome]
  · intro dirs
    induction dirs with
    | nil => simp [findTemplate]
    | cons d ds ih =>
      have h := happ [d] ds
      constructor
      · intro hnone
        rw [show (d :: ds) = [d] ++ ds from rfl] at hnone
        rw [h] at hnone
        intro d2 hd2
        rcases hF : findTemplate parse name ds with _ | t
        · rw [hF] at hnone
          rcases List.mem_cons.mp hd2 with rfl | hmem
          · rcases hD : dirLookup parse name d2 with _ | u
            · rfl
            · exfalso
              have : findTemplate parse name [d2] = some u := by
                show (match dirLookup parse name d2 with
                  | some t => some t
                  | none => (none : Option Template)) = some u
                rw [hD]
              rw [this] at hnone
              exact Option.noConfusion hnone
          · exact (ih.mp hF) d2 hmem
        · rw [hF] at hnone; exact Option.noConfusion hnone
      · intro hall
        rw [show (d :: ds) = [d] ++ ds from rfl, h]
        have hds : findTemplate parse name ds = none :=
          ih.mpr (fun d2 hd2 => hall d2 (List.mem_cons_of_mem d hd2))
        rw [hds]
        show findTemplate parse name [d] = none
        show (match dirLookup parse name d with
          | some t => some t
          | none => (none : Option Template)) = none
        rw [hall d (List.mem_cons_self d ds)]

/-- Concrete instance of C5: two directories both holding template `X`; the
later one wins. -/
def parseW : String → LGFile := fun _ => LGFile.mk [] (fun _ _ => Except.error "")

def dirAW : Dir := Dir.mk [("X", "fromA")]

def dirBW : Dir := Dir.mk [("X", "fromB")]

/-- Witness for C5 at a concrete input: with `[A, B]` both containing `X`,
the content comes from `B`. -/
theorem c5_witness : findTemplate parseW "X" [dirAW, dirBW] = some (Template.text "fromB") := by
  have h := (c5_findTemplate_precedence parseW "X").2.1 dirAW dirBW (by rfl)
  rw [h]
  rfl

/-- Claim C3 (amended): for a `$\x7b`-prefixed string node, an error
returned by `tryEvaluate` (or a falsy result) is reported only on the
strict pass (`missingIsError = true`), but an exception thrown while
parsing or evaluating is caught and reported on both passes; in every
failure case the original string is returned unchanged. -/
theorem c3_exception_reported_on_both_passes {σ : Type} (ev : EvalFn σ) (setP : SetProp σ)
    (s : String) (sc : σ) (path : String) (ip : Bool)
    (h : strStarts s "$\x7b" = true) :
    (∀ m, ev (jsSubstring s 2 (s.length - 1)) sc = Except.error m →
      ∀ missingIsError,
        expandSchema ev setP (Json.str s) sc path ip missingIsError
          = (Except.ok (Json.str s),
             [(FeedbackType.error, jsSubstring s 2 (s.length - 1) ++ ": " ++ m)]))
    ∧ (∀ value error, ev (jsSubstring s 2 (s.length - 1)) sc = Except.ok (value, error) →
        (errFalsy error && truthyOpt value) = false →
        expandSchema ev setP (Json.str s) sc path ip true
            = (Except.ok (Json.str s),
               [(FeedbackType.error, jsSubstring s 2 (s.length - 1) ++ ": " ++ errStr error)])
          ∧ expandSchema ev setP (Json.str s) sc path ip false
            = (Except.ok (Json.str s), [])) := by
  constructor
  · intro m hm missingIsError
    rw [expandSchema, if_pos h, exprBranch, hm]
  · intro value error hev hcond
    constructor
    · rw [expandSchema, if_pos h, exprBranch, hev]
      simp [hcond]
    · rw [expandSchema, if_pos h, exprBranch, hev]
      simp [hcond]

/-- Counterexample to C3 as stated: on the forgiving pass
(`missingIsError = false`) a thrown parse error is still reported through
the feedback channel (the catch of lines 271-273 is outside the
`missingIsError` guard), while the claim says no error is reported there. -/
theorem c3_forgiving_pass_reports_cex :
    expandSchema (fun _ _ => (Except.error "Oops" : Except String (Option Json × Option String)))
        (fun (sc : Unit) _ => sc) (Json.str "$\x7bx\x7d") () "" false false
      = (Except.ok (Json.str "$\x7bx\x7d"), [(FeedbackType.error, "x: Oops")]) := by rfl

/-- Witness for C3 at a concrete input: an evaluator whose `tryEvaluate`
returns an error is reported on the strict pass and silent on the forgiving
pass. -/
theorem c3_witness :
    expandSchema (fun _ _ => (Except.ok (none, some "miss") : Except String (Option Json × Option String)))
        (fun (sc : Unit) _ => sc) (Json.str "$\x7by\x7d") () "" false true
      = (Except.ok (Json.str "$\x7by\x7d"), [(FeedbackType.error, "y: miss")])
    ∧ expandSchema (fun _ _ => (Except.ok (none, some "miss") : Except String (Option Json × Option String)))
        (fun (sc : Unit) _ => sc) (Json.str "$\x7by\x7d") () "" false false
      = (Except.ok (Json.str "$\x7by\x7d"), []) := by
  have h := (c3_exception_reported_on_both_passes
    (fun _ _ => (Except.ok (none, some "miss") : Except String (Option Json × Option String)))
    (fun (sc : Unit) _ => sc) "$\x7by\x7d" () "" false (by rfl)).2 none (some "miss") (by rfl) (by rfl)
  exact ⟨h.1, h.2⟩

/-- For a string of length at least three, the JavaScript
`substring(2, length - 1)` is: drop the first two characters and the last
one. -/
theorem jsSubstring_mid (s : String) (h : 3 ≤ s.length) :
    jsSubstring s 2 (s.length - 1) = String.mk ((s.toList.drop 2).dropLast) := by
  have hsl : s.length = s.toList.length := rfl
  rw [jsSubstring]
  have h3 : 3 ≤ s.toList.length := by omega
  have hx : min 2 s.toList.length = 2 := by omega
  have hy : min (s.length - 1) s.toList.length = s.toList.length - 1 := by omega
  rw [hx, hy]
  have hlo : min 2 (s.toList.length - 1) = 2 := by omega
  have hhi : max 2 (s.toList.length - 1) = s.toList.length - 1 := by omega
  rw [hlo, hhi]
  rw [List.dropLast_eq_take]
  congr 1
  congr 1
  rw [List.length_drop]
  omega

/-- Claim C10: `expandSchema` treats every string node that starts with the
two characters `$\x7b` as an expression regardless of whether it ends with
`\x7d`: the branch is taken on the prefix test alone, and the evaluated
expression is the string with its first two and last characters removed —
exactly the branch that a well-formed `$\x7b...\x7d` string with the same
interior takes. -/
theorem c10_marker_without_closing_brace {σ : Type} (ev : EvalFn σ) (setP : SetProp σ)
    (sc : σ) (path : String) (ip missingIsError : Bool) (s : String)
    (h1 : strStarts s "$\x7b" = true) (h2 : 3 ≤ s.length) :
    expandSchema ev setP (Json.str s) sc path ip missingIsError
      = exprBranch ev sc missingIsError s (String.mk ((s.toList.drop 2).dropLast)) := by
  rw [expandSchema, if_pos h1, jsSubstring_mid s h2]

/-- Witness for C10 at the concrete input of the claim: `$\x7bfoo` (no
closing brace) has its final character dropped and `fo` parsed as the
expression — the evaluator is consulted at `fo` and its result substituted,
instead of the string passing through as an ordinary scalar. -/
theorem c10_witness :
    expandSchema (fun e (_ : Unit) => (Except.ok (some (Json.str e), none) : Except String (Option Json × Option String)))
        (fun sc _ => sc) (Json.str "$\x7bfoo") () "" false false
      = (Except.ok (Json.str "fo"), []) := by
  rw [c10_marker_without_closing_brace
    (fun e (_ : Unit) => (Except.ok (some (Json.str e), none) : Except String (Option Json × Option String)))
    (fun sc _ => sc) () "" false false "$\x7bfoo" (by rfl) (by decide)]
  rfl

/-- Every `Json` value has positive size. -/
theorem Json_sizeOf_pos (j : Json) : 0 < sizeOf j := by
  cases j <;> simp

/-- A marker-free list has marker-free members. -/
theorem noMarkL_mem {x : Json} {xs : List Json} (h : noMarkL xs = true) (hx : x ∈ xs) :
    noMarkJ x = true := by
  induction xs with
  | nil => cases hx
  | cons y ys ih =>
    rw [noMarkL, Bool.and_eq_true] at h
    rcases List.mem_cons.mp hx with rfl | hmem
    · exact h.1
    · exact ih h.2 hmem

/-- A null-free list has null-free members. -/
theorem noNullL_mem {x : Json} {xs : List Json} (h : noNullL xs = true) (hx : x ∈ xs) :
    noNullJ x = true := by
  induction xs with
  | nil => cases hx
  | cons y ys ih =>
    rw [noNullL, Bool.and_eq_true] at h
    rcases List.mem_cons.mp hx with rfl | hmem
    · exact h.1
    · exact ih h.2 hmem

/-- A marker-free entry list has marker-free values. -/
theorem noMarkO_mem {k : String} {v : Json} {kvs : List (String × Json)}
    (h : noMarkO kvs = true) (hx : (k, v) ∈ kvs) : noMarkJ v = true := by
  induction kvs with
  | nil => cases hx
  | cons y ys ih =>
    obtain ⟨k2, v2⟩ := y
    rw [noMarkO, Bool.and_eq_true] at h
    rcases List.mem_cons.mp hx with heq | hmem
    · cases heq; exact h.1
    · exact ih h.2 hmem

/-- A null-free entry list has null-free values. -/
theorem noNullO_mem {k : String} {v : Json} {kvs : List (String × Json)}
    (h : noNullO kvs = true) (hx : (k, v) ∈ kvs) : noNullJ v = true := by
  induction kvs with
  | nil => cases hx
  | cons y ys ih =>
    obtain ⟨k2, v2⟩ := y
    rw [noNullO, Bool.and_eq_true] at h
    rcases List.mem_cons.mp hx with heq | hmem
    · cases heq; exact h.1
    · exact ih h.2 hmem

/-- If every element of a list passes through `expandSchema` unchanged with
no feedback, so does the list through the array loop. -/
theorem expandList_noop {σ : Type} (ev : EvalFn σ) (setP : SetProp σ)
    (xs : List Json) (sc : σ) (path : String) (missingIsError : Bool)
    (H : ∀ x ∈ xs, ∀ (sc2 : σ) (p2 : String) (ip2 : Bool),
      expandSchema ev setP x sc2 p2 ip2 missingIsError = (Except.ok x, [])) :
    expandList ev setP xs sc path missingIsError = (Except.ok xs, []) := by
  induction xs with
  | nil => rw [expandList]
  | cons x xs ih =>
    rw [expandList, H x (List.mem_cons_self x xs) sc path false,
      ih (fun y hy => H y (List.mem_cons_of_mem x hy))]
    rfl

/-- If every value of an entry list passes through `expandSchema` unchanged
with no feedback, so does the entry list through the object loop. -/
theorem expandObj_noop {σ : Type} (ev : EvalFn σ) (setP : SetProp σ)
    (kvs : List (String × Json)) (sc : σ) (path : String) (inProperties missingIsError : Bool)
    (H : ∀ k v, (k, v) ∈ kvs → ∀ (sc2 : σ) (p2 : String) (ip2 : Bool),
      expandSchema ev setP v sc2 p2 ip2 missingIsError = (Except.ok v, [])) :
    expandObj ev setP kvs sc path inProperties missingIsError = (Except.ok kvs, []) := by
  induction kvs generalizing sc path inProperties with
  | nil => rw [expandObj]
  | cons kv kvs ih =>
    obtain ⟨k, v⟩ := kv
    rw [expandObj, H k v (List.mem_cons_self (k, v) kvs),
      ih sc path inProperties (fun k2 v2 h2 => H k2 v2 (List.mem_cons_of_mem (k, v) h2))]
    rfl

/-- Bounded-size form of the no-op property of `expandSchema` on clean
trees, for strong induction. -/
theorem expandSchema_noop_bounded {σ : Type} (ev : EvalFn σ) (setP : SetProp σ) :
    ∀ (n : Nat) (j : Json), sizeOf j ≤ n → noMarkJ j = true → noNullJ j = true →
      ∀ (sc : σ) (path : String) (ip missingIsError : Bool),
        expandSchema ev setP j sc path ip missingIsError = (Except.ok j, []) := by
  intro n
  induction n with
  | zero =>
    intro j hle
    exact absurd hle (by have := Json_sizeOf_pos j; omega)
  | succ n ih =>
    intro j hle hm hn sc path ip missingIsError
    cases j with
    | null => rw [noNullJ] at hn; cases hn
    | bool b => rw [expandSchema]
    | num k => rw [expandSchema]
    | str s =>
      rw [noMarkJ, Bool.not_eq_eq_eq_not, Bool.not_true] at hm
      rw [expandSchema, if_neg (by rw [hm]; exact Bool.false_ne_true)]
    | arr xs =>
      rw [noMarkJ] at hm
      rw [noNullJ] at hn
      have hsz : sizeOf xs ≤ n := by
        have : sizeOf (Json.arr xs) = 1 + sizeOf xs := by simp
        omega
      have h1 : expandList ev setP xs sc path missingIsError = (Except.ok xs, []) := by
        apply expandList_noop
        intro x hx sc2 p2 ip2
        apply ih
        · have := List.sizeOf_lt_of_mem hx
          omega
        · exact noMarkL_mem hm hx
        · exact noNullL_mem hn hx
      rw [expandSchema, h1]
    | obj kvs =>
      rw [noMarkJ] at hm
      rw [noNullJ] at hn
      have hsz : sizeOf kvs ≤ n := by
        have : sizeOf (Json.obj kvs) = 1 + sizeOf kvs := by simp
        omega
      have h1 : expandObj ev setP kvs sc path ip missingIsError = (Except.ok kvs, []) := by
        apply expandObj_noop
        intro k v hkv sc2 p2 ip2
        apply ih
        · have h2 := List.sizeOf_lt_of_mem hkv
          have h3 : sizeOf (k, v) = 1 + sizeOf k + sizeOf v := by simp
          omega
        · exact noMarkO_mem hm hkv
        · exact noNullO_mem hn hkv
      rw [expandSchema, h1]

/-- Claim C7 (amended): `expandSchema` is the identity — and hence
idempotent — on every already-expanded tree that is additionally free of
`null` nodes, for any scope, path and strictness flag, emitting no
feedback.  (A `null` node makes it throw instead, see the
counterexample.) -/
theorem c7_expand_noop_on_clean {σ : Type} (ev : EvalFn σ) (setP : SetProp σ)
    (j : Json) (hm : noMarkJ j = true) (hn : noNullJ j = true)
    (sc : σ) (path : String) (ip missingIsError : Bool) :
    expandSchema ev setP j sc path ip missingIsError = (Except.ok j, [])
    ∧ (∀ j2, expandSchema ev setP j sc path ip missingIsError = (Except.ok j2, []) →
        expandSchema ev setP j2 sc path ip missingIsError = (Except.ok j2, [])) := by
  have h1 := expandSchema_noop_bounded ev setP (sizeOf j) j (Nat.le_refl _) hm hn sc path ip
    missingIsError
  refine ⟨h1, ?_⟩
  intro j2 h2
  rw [h1] at h2
  obtain ⟨h3, -⟩ := Prod.mk.injEq .. ▸ h2
  cases h2
  exact h1

/-- Counterexample to C7 as stated: `Json.null` contains no string node at
all — in particular none starting with the marker — yet `expandSchema` does
not return it unchanged: `typeof null` is `'object'` in JavaScript, so the
source reaches `Object.entries(null)`, which throws. -/
theorem c7_null_throws_cex :
    noMarkJ Json.null = true
    ∧ expandSchema (fun _ _ => (Except.error "e" : Except String (Option Json × Option String)))
        (fun (sc : Unit) _ => sc) Json.null () "" false false
      = (Except.error nullEntriesMsg, [])
    ∧ ((Except.error nullEntriesMsg : Except String Json), ([] : List Fb))
        ≠ (Except.ok Json.null, []) := by
  refine ⟨rfl, rfl, ?_⟩
  intro h
  exact Except.noConfusion (congrArg Prod.fst h)

/-- Witness for C7 at a concrete clean tree. -/
theorem c7_witness :
    expandSchema (fun _ _ => (Except.error "e" : Except String (Option Json × Option String)))
        (fun (sc : Unit) _ => sc)
        (Json.obj [("a", Json.str "x"), ("properties", Json.arr [Json.num 3, Json.bool true])])
        () "" false true
      = (Except.ok (Json.obj [("a", Json.str "x"),
          ("properties", Json.arr [Json.num 3, Json.bool true])]), []) :=
  (c7_expand_noop_on_clean (fun _ _ => (Except.error "e" : Except String (Option Json × Option String)))
    (fun (sc : Unit) _ => sc)
    (Json.obj [("a", Json.str "x"), ("properties", Json.arr [Json.num 3, Json.bool true])])
    (by rfl) (by rfl) () "" false true).1

/-- The exclusion the claim states, following its words: every designated
generation-metadata key beginning with `$` — `$templates`, `$entities`,
`$requires`, and `$public` — excluded from an entry list.  For comparison
with the `stringifyObj` behaviour of the code. -/
def claimStripKeys : List (String × Json) → List (String × Json)
  | [] => []
  | (k, v) :: rest =>
    if k == "$templates" || k == "$entities" || k == "$requires" || k == "$public" then
      claimStripKeys rest
    else (k, v) :: claimStripKeys rest

/-- Claim C4 (amended): the final emitted schema serialization excludes
exactly the object entries keyed `$templates` and `$requires` (the keys
named by the replacer of line 370); every other entry — including
`$entities` and `$public` — passes through with its value recursively
serialized. -/
theorem c4_strip_only_templates_requires (kvs : List (String × Json)) :
    (∀ k v, (k, v) ∈ kvs → k ≠ "$templates" → k ≠ "$requires" →
      (k, stringifyVal v) ∈ stringifyObj kvs)
    ∧ (∀ k v, (k, v) ∈ stringifyObj kvs → k ≠ "$templates" ∧ k ≠ "$requires") := by
  induction kvs with
  | nil =>
    constructor
    · intro k v hkv; cases hkv
    · intro k v hkv; rw [stringifyObj] at hkv; cases hkv
  | cons kv rest ih =>
    obtain ⟨k0, v0⟩ := kv
    constructor
    · intro k v hkv hk1 hk2
      rcases List.mem_cons.mp hkv with heq | hmem
      · cases heq
        rw [stringifyObj, if_neg]
        · exact List.mem_cons_self _ _
        · simp [hk1, hk2]
      · rw [stringifyObj]
        by_cases hk0 : (k0 == "$templates" || k0 == "$requires") = true
        · rw [if_pos hk0]
          exact ih.1 k v hmem hk1 hk2
        · rw [if_neg hk0]
          exact List.mem_cons_of_mem _ (ih.1 k v hmem hk1 hk2)
    · intro k v hkv
      rw [stringifyObj] at hkv
      by_cases hk0 : (k0 == "$templates" || k0 == "$requires") = true
      · rw [if_pos hk0] at hkv
        exact ih.2 k v hkv
      · rw [if_neg hk0] at hkv
        rcases List.mem_cons.mp hkv with heq | hmem
        · cases heq
          simp only [Bool.or_eq_true, beq_iff_eq] at hk0
          push_neg at hk0
          exact hk0
        · exact ih.2 k v hmem

/-- Counterexample to C4 as stated: an emitted schema keeps `$entities` and
`$public` entries — the replacer of line 370 names only `$templates` and
`$requires` — while the claim says all four designated keys are excluded. -/
theorem c4_entities_public_kept_cex :
    stringifyObj [("$entities", Json.str "e"), ("$public", Json.bool true),
        ("$templates", Json.str "t")]
      = [("$entities", Json.str "e"), ("$public", Json.bool true)]
    ∧ claimStripKeys [("$entities", Json.str "e"), ("$public", Json.bool true),
        ("$templates", Json.str "t")] = []
    ∧ ([("$entities", Json.str "e"), ("$public", Json.bool true)] : List (String × Json)) ≠ [] := by
  refine ⟨rfl, rfl, ?_⟩
  intro h
  cases h

/-- Witness for C4 at a concrete input: a `$public` entry survives
serialization. -/
theorem c4_witness :
    ("$public", stringifyVal (Json.bool true))
      ∈ stringifyObj [("$requires", Json.str "r"), ("$public", Json.bool true)] :=
  (c4_strip_only_templates_requires [("$requires", Json.str "r"), ("$public", Json.bool true)]).1
    "$public" (Json.bool true) (by simp) (by decide) (by decide)

/-- The base name of a path with its file extension stripped, following the
claim's words, for comparison with the `name` field the code builds. -/
def claimBaseName (p : String) : String :=
  String.mk ((ppBasename p).toList.take ((ppBasename p).toList.length - (ppExtname p).length))

/-- Claim C8 (amended): `addEntry` builds a `FileRef` whose `name` is the
base name of the path with only a `.dialog` suffix stripped (for any other
extension the full basename, extension included, is kept), and — when the
tracker has a bucket for the path's extension — refuses the claim (returns
`undefined`) exactly when that bucket already holds an entry with an equal
`name`. -/
theorem c8_addEntry_claim (fullPath outDir : String) (tracker : Tracker) (arr : List FileRef)
    (h : alookup tracker (extnameNoDot fullPath) = some arr) :
    (addEntry fullPath outDir tracker = Except.ok none
      ↔ arr.any (fun r => r.name == ppBasenameExt fullPath ".dialog") = true)
    ∧ (arr.any (fun r => r.name == ppBasenameExt fullPath ".dialog") = false →
      addEntry fullPath outDir tracker = Except.ok (some
        { name := ppBasenameExt fullPath ".dialog"
          fallbackName := replaceLocaleLg (ppBasenameExt fullPath ".dialog")
          fullName := ppBasename fullPath
          relative := prelative outDir fullPath }))
    ∧ (strEnds (ppBasename fullPath) ".dialog" = false →
      ppBasenameExt fullPath ".dialog" = ppBasename fullPath) := by
  refine ⟨?_, ?_, ?_⟩
  · cases han : arr.any (fun r => r.name == ppBasenameExt fullPath ".dialog") with
    | true => simp [addEntry, h, han]
    | false => simp [addEntry, h, han]
  · intro han
    simp [addEntry, h, han]
  · intro hends
    rw [ppBasenameExt]
    rw [if_neg]
    intro h2
    rw [Bool.and_eq_true] at h2
    rw [hends] at h2
    exact Bool.false_ne_true h2.2

/-- Counterexample to C8 as stated: for the path `out/foo.lg` the claim
demands `name = "foo"` (extension stripped), but `ppath.basename(fullPath,
'.dialog')` strips only a `.dialog` suffix, so the code records
`name = "foo.lg"`. -/
theorem c8_name_keeps_extension_cex :
    addEntry "out/foo.lg" "out" [("lg", [])]
      = Except.ok (some (FileRef.mk "foo.lg" "foo.lg" "foo.lg" "foo.lg"))
    ∧ claimBaseName "out/foo.lg" = "foo"
    ∧ ("foo.lg" : String) ≠ "foo" := by
  refine ⟨rfl, rfl, by decide⟩

/-- Witness for C8 at a concrete `.dialog` path. -/
theorem c8_witness :
    addEntry "out/a.dialog" "out" [("dialog", [])]
      = Except.ok (some (FileRef.mk "a" "a" "a.dialog" "a.dialog")) := by
  have h := (c8_addEntry_claim "out/a.dialog" "out" [("dialog", [])] [] (by rfl)).2.1 (by rfl)
  rw [h]
  rfl

/-- When the tracker has no claimed file for `name` and no directory
provides it, `processTemplate` returns the empty path; non-ignorable calls
additionally report the missing-template error (lines 183-185). -/
theorem processTemplate_missing (env : Env) (f : Nat) (ig : Bool) (name : String) (st : GenState)
    (h1 : (existingRef name st.tracker).1 = none)
    (h2 : findTemplate env.parse name env.templateDirs = none) :
    processTemplate env (Nat.succ f) ig name st
      = ("",
         if ig then { st with tracker := (existingRef name st.tracker).2 }
         else pushFb { st with tracker := (existingRef name st.tracker).2 }
           (FeedbackType.error, "Missing template " ++ name)) := by
  rw [processTemplate]
  simp only [ptBodyAux, h1, h2]
  cases ig with
  | true => rfl
  | false => rfl

/-- Claim C1 (amended): for a property with `$entities` and no explicit
`$templates`, the orchestrator materializes the synthesized name
`<entityName>Entity-<type>` with `ignorable = false` (line 226), so when no
template directory contains the synthesized name a `Missing template` error
IS reported through the feedback channel — exactly as for an absent
explicit `$templates` entry. -/
theorem c1_entity_template_missing_reported (env : Env) (f : Nat) (st : GenState) (e t : String)
    (h1 : (existingRef (synthName st e) st.tracker).1 = none)
    (h2 : findTemplate env.parse (synthName st e) env.templateDirs = none)
    (h3 : (existingRef t st.tracker).1 = none)
    (h4 : findTemplate env.parse t env.templateDirs = none) :
    (entityLoop env (Nat.succ f) [e] st).feedback
      = st.feedback ++ [(FeedbackType.error, "Missing template " ++ synthName st e)]
    ∧ (templatesLoop env (Nat.succ f) [t] st).feedback
      = st.feedback ++ [(FeedbackType.error, "Missing template " ++ t)] := by
  constructor
  · show (entityStep env (Nat.succ f) st e).feedback = _
    rw [entityStep,
      processTemplate_missing env f false (synthName st e)
        { st with role := (strSplitOn e ':')[1]? } h1 h2]
    rfl
  · show ((processTemplate env (Nat.succ f) false t st).2).feedback = _
    rw [processTemplate_missing env f false t st h3 h4]
    rfl

/-- A run state with one property in scope, used by the C1 instances. -/
def stC1 : GenState :=
  { cwd := "c", disk := [], feedback := [], tracker := [], props := [],
    locale := "en", property := "p", typeName := "string", role := none }

/-- An environment with no template directories at all. -/
def envEmpty : Env :=
  { templateDirs := [], outDir := "out", pfx := "p", force := false,
    parse := fun _ => LGFile.mk [] (fun _ _ => Except.error "x") }

/-- Counterexample to C1 as stated: the entity loop for the declared entity
`x` (synthesized name `xEntity-string`) with no template directory
containing it reports a `Missing template` error — the claim says no error
is reported for an absent synthesized entity template. -/
theorem c1_missing_entity_template_errors_cex :
    (entityLoop envEmpty 3 ["x"] stC1).feedback
      = [(FeedbackType.error, "Missing template xEntity-string")] := by rfl

/-- Witness for C1 at a concrete input, including the self-reference
resolution `pEntity → string`. -/
theorem c1_witness :
    (entityLoop envEmpty 2 ["pEntity:r"] stC1).feedback
      = [(FeedbackType.error, "Missing template stringEntity-string")] := by
  have h := (c1_entity_template_missing_reported envEmpty 1 stC1 "pEntity:r" "u"
    (by rfl) (by rfl) (by rfl) (by rfl)).1
  rw [h]
  rfl

/-- The output block in the skip configuration: identity claimed, target
already on disk, `force` unset — emit the warning only (lines 162-164). -/
theorem outputPhase_skip (env : Env) (tpl : Template) (name fn : String) (st : GenState)
    (ref : FileRef)
    (hc : outputCond tpl = true)
    (hf : computeFilename env tpl name st = Except.ok fn)
    (ha : addEntry (pjoin env.outDir fn) env.outDir st.tracker = Except.ok (some ref))
    (hp : pathExists st (pjoin env.outDir fn) = true)
    (hforce : env.force = false) :
    outputPhase env tpl name st
      = (pjoin env.outDir fn,
         pushFb st (FeedbackType.warning, "Skipping already existing " ++ pjoin env.outDir fn),
         none) := by
  simp only [outputPhase, hc, hf, ha, hp, hforce, if_true, Bool.false_or, Bool.not_true]
  rfl

/-- A template with neither an `entities` nor a `templates` section makes
the section phase a no-op. -/
theorem sectionsPhase_noop (env : Env) (pt : String → GenState → String × GenState)
    (tpl : Template) (outPath : String) (st : GenState)
    (h1 : hasSection tpl "entities" = false) (h2 : hasSection tpl "templates" = false) :
    sectionsPhase env pt tpl outPath st = (outPath, st, none) := by
  cases tpl with
  | text s => rfl
  | lgT f => simp only [sectionsPhase, h1, h2]; rfl

/-- `existingRef` registers no `FileRef`: it at most creates an empty bucket
for a missing extension. -/
theorem allTrackerRefs_aset_nil (k : String) :
    ∀ (tr : Tracker), alookup tr k = none →
      allTrackerRefs (aset tr k []) = allTrackerRefs tr := by
  intro tr
  induction tr with
  | nil => intro h; rfl
  | cons kv rest ih =>
    obtain ⟨k0, v⟩ := kv
    intro h
    rw [alookup] at h
    by_cases hk : (k0 == k) = true
    · rw [if_pos hk] at h; cases h
    · rw [if_neg hk] at h
      rw [aset, if_neg hk]
      show v ++ allTrackerRefs (aset rest k []) = v ++ allTrackerRefs rest
      rw [ih h]

/-- The tracker mutation of `existingRef` preserves the registered refs. -/
theorem allTrackerRefs_existingRef (name : String) (tr : Tracker) :
    allTrackerRefs (existingRef name tr).2 = allTrackerRefs tr := by
  rw [existingRef]
  cases h : alookup tr (extnameNoDot name) with
  | none => exact allTrackerRefs_aset_nil (extnameNoDot name) tr h
  | some arr => rfl

/-- Claim C2 (amended): when a new file identity is successfully claimed
but the computed output path already exists on disk and `force` is false,
the materializer skips the write and emits a warning — but it does NOT
register the claimed `FileRef`: the `push` of line 160 sits in the write
branch only, so the tracker's registered refs are unchanged (at most an
empty bucket is created) and a later lookup for the identity does not treat
the file as produced.  Stated for templates without `entities`/`templates`
sections (which would merely run afterwards). -/
theorem c2_skip_does_not_register (env : Env) (f : Nat) (ig : Bool) (name fn : String)
    (st : GenState) (tpl : Template) (ref : FileRef)
    (h1 : (existingRef name st.tracker).1 = none)
    (h2 : findTemplate env.parse name env.templateDirs = some tpl)
    (h3 : truthyTemplate tpl = true)
    (h4 : outputCond tpl = true)
    (h5 : hasSection tpl "entities" = false)
    (h6 : hasSection tpl "templates" = false)
    (h7 : computeFilename env tpl name { st with tracker := (existingRef name st.tracker).2 }
      = Except.ok fn)
    (h8 : addEntry (pjoin env.outDir fn) env.outDir (existingRef name st.tracker).2
      = Except.ok (some ref))
    (h9 : pathExists st (pjoin env.outDir fn) = true)
    (h10 : env.force = false) :
    processTemplate env (Nat.succ f) ig name st
      = (pjoin env.outDir fn,
         pushFb { st with tracker := (existingRef name st.tracker).2 }
           (FeedbackType.warning, "Skipping already existing " ++ pjoin env.outDir fn))
    ∧ allTrackerRefs ((processTemplate env (Nat.succ f) ig name st).2).tracker
      = allTrackerRefs st.tracker := by
  have hop := outputPhase_skip env tpl name fn
    { st with tracker := (existingRef name st.tracker).2 } ref h4 h7 h8 h9 h10
  have hsp := sectionsPhase_noop env (fun n a => processTemplate env f false n a) tpl
    (pjoin env.outDir fn)
    (pushFb { st with tracker := (existingRef name st.tracker).2 }
      (FeedbackType.warning, "Skipping already existing " ++ pjoin env.outDir fn)) h5 h6
  have key : processTemplate env (Nat.succ f) ig name st
      = (pjoin env.outDir fn,
         pushFb { st with tracker := (existingRef name st.tracker).2 }
           (FeedbackType.warning, "Skipping already existing " ++ pjoin env.outDir fn)) := by
    rw [processTemplate]
    simp only [ptBodyAux, h1, h2, h3, hop, hsp, if_true]
    rfl
  refine ⟨key, ?_⟩
  rw [key]
  show allTrackerRefs (existingRef name st.tracker).2 = allTrackerRefs st.tracker
  exact allTrackerRefs_existingRef name st.tracker

/-- One template directory holding a constant template `t`. -/
def dirC2 : Dir := Dir.mk [("t", "hello")]

/-- Environment for the C2 instances: `force` unset. -/
def envC2 : Env :=
  { templateDirs := [dirC2], outDir := "out", pfx := "p", force := false,
    parse := fun _ => LGFile.mk [] (fun _ _ => Except.error "x") }

/-- Run state for the C2 instances: the computed output path `out/p-t`
already exists on disk; nothing claimed yet. -/
def stC2 : GenState :=
  { cwd := "c", disk := ["out/p-t"], feedback := [], tracker := [], props := [],
    locale := "en", property := "", typeName := "", role := none }

/-- Counterexample to C2 as stated: the claim is accepted (`addEntry`
returns the new ref), the path exists, `force` is false — the warning is
emitted, but the final tracker registers NO `FileRef` (the claim says the
claimed ref is still registered). -/
theorem c2_skip_registration_cex :
    (processTemplate envC2 3 false "t" stC2).2
      = GenState.mk "c" ["out/p-t"]
          [(FeedbackType.warning, "Skipping already existing out/p-t")]
          [("", [])] [] "en" "" "" none
    ∧ allTrackerRefs ((processTemplate envC2 3 false "t" stC2).2).tracker = [] :=
  ⟨rfl, rfl⟩

/-- Witness for C2 at a concrete input. -/
theorem c2_witness :
    processTemplate envC2 1 false "t" stC2
      = ("out/p-t",
         GenState.mk "c" ["out/p-t"]
           [(FeedbackType.warning, "Skipping already existing out/p-t")]
           [("", [])] [] "en" "" "" none) := by
  have h := (c2_skip_does_not_register envC2 0 false "t" "p-t" stC2 (Template.text "hello")
    (FileRef.mk "p-t" "p-t" "p-t" "p-t")
    (by rfl) (by rfl) (by rfl) (by rfl) (by rfl) (by rfl) (by rfl) (by rfl) (by rfl) (by rfl)).1
  exact h.trans (by rfl)

/-- Claim C9 (amended): the per-property authoring-omission error is
reported exactly when, after the property's template loop, the property
node still carries no `$entities` — irrespective of whether explicit
`$templates` were declared (the check of line 217 reads only `$entities`).
When `$entities` is present, no such error is emitted: the step returns the
post-template state, extended by the entity loop only when no explicit
`$templates` exist. -/
theorem c9_entities_error_iff_missing (env : Env) (fuel : Nat) (st0 : GenState)
    (pr : String × String) (st1 : GenState)
    (hst1 : st1 = templatesLoop env fuel
      (propTemplates { st0 with property := pr.1, typeName := pr.2 } pr.1 pr.2)
      { st0 with property := pr.1, typeName := pr.2 }) :
    ((alookup st1.props pr.1).bind (fun ps => ps.entities) = none →
      processProperty env fuel st0 pr = pushFb st1 (FeedbackType.error, entitiesMsg pr.1))
    ∧ (∀ es, (alookup st1.props pr.1).bind (fun ps => ps.entities) = some es →
      processProperty env fuel st0 pr
        = match (alookup st1.props pr.1).bind (fun ps => ps.tmpl) with
          | some _ => st1
          | none => entityLoop env fuel es st1) := by
  subst hst1
  constructor
  · intro hne
    rw [processProperty]
    simp only [hne]
  · intro es hes
    rw [processProperty]
    simp only [hes]

/-- Run state for the C9 instances: property `p` declares explicit
`$templates` (`["tmpl"]`) and no `$entities`. -/
def stC9 : GenState :=
  { cwd := "c", disk := [], feedback := [], tracker := [],
    props := [("p", PropSchema.mk none (some ["tmpl"]))],
    locale := "en", property := "", typeName := "", role := none }

/-- Counterexample to C9 as stated: a property WITH explicit `$templates`
and no `$entities` is still reported (the claim says such a property is not
reported).  The run first reports the missing explicit template, then the
authoring-omission error. -/
theorem c9_explicit_templates_still_reported_cex :
    (processProperty envEmpty 3 stC9 ("p", "string")).feedback
      = [(FeedbackType.error, "Missing template tmpl"),
         (FeedbackType.error, "p does not have $entities defined in schema or template.")] := by
  rfl

/-- Run state for the C9 witness: property `q` declares the explicit empty
`$templates` array (truthy, so no default template is materialized) and no
`$entities`. -/
def stC9w : GenState :=
  { cwd := "c", disk := [], feedback := [], tracker := [],
    props := [("q", PropSchema.mk none (some []))],
    locale := "en", property := "", typeName := "", role := none }

/-- Witness for C9 at a concrete input: with an empty explicit `$templates`
list the template loop does nothing, and the authoring-omission error is
the only feedback. -/
theorem c9_witness :
    processProperty envEmpty 2 stC9w ("q", "string")
      = GenState.mk "c" [] [(FeedbackType.error, entitiesMsg "q")] []
          [("q", PropSchema.mk none (some []))] "en" "q" "string" none := by
  have h := (c9_entities_error_iff_missing envEmpty 2 stC9w ("q", "string") _ rfl).1 (by rfl)
  exact h.trans (by rfl)
